import Mathlib

/-!
Verification development for the wiktionary dump parser's extraction pipeline.

The Rust sources are shallowly embedded:
* the lexical classifier of `src/parser/words/mod.rs` becomes pure functions
  from the section tree to the pair (list of `Word`s handed to the word
  consumer, in invocation order; list of error messages handed to the error
  consumer, in invocation order).  Both consumers are modelled as collecting
  lists; `Error::Other(msg)` is modelled as the message string `msg`.
* the three `regex::Regex` patterns of that file are alternations of literals
  (the only non-literal constructs are optional suffixes such as `s?` or
  `( [1-9][0-9]*)?`, and one-letter case groups such as `(L|l)`).  Since the
  crate only ever calls `is_match`, which performs an unanchored substring
  search, a pattern alternation `X(opt)?` matches some substring of `s` iff
  `s` contains the literal `X`; each such alternative is therefore embedded
  as the literal with the optional tail dropped, and each `(A|a)` group is
  expanded into both of its variants.
* the file-extension classification of `parse_dump_file`
  (`src/parser/mod.rs`) and the `</contributor>` decision of
  `parse_contributor` become functions on the data they inspect.
* the XML event filter `read_relevant_event` (`src/parser/xml/mod.rs`)
  becomes a function on a list of pull-parser events.
-/

namespace WiktionaryDumpParser

/-! ### String helpers

`charListPfx p h` decides whether the character list `p` is a prefix of `h`;
`hasSub hay pat` decides whether `pat` occurs as a contiguous substring of
`hay`, which is exactly `regex::Regex::is_match` for a literal pattern.
`strStartsWith` embeds Rust's `str::starts_with`, `strEndsWith` embeds
`str::ends_with`. -/

def charListPfx : List Char → List Char → Bool
  | [], _ => true
  | _ :: _, [] => false
  | p :: ps, h :: hs => p == h && charListPfx ps hs

def charListSub : List Char → List Char → Bool
  | p, [] => charListPfx p []
  | p, h :: hs => charListPfx p (h :: hs) || charListSub p hs

def hasSub (hay pat : String) : Bool := charListSub pat.data hay.data

def strStartsWith (hay pat : String) : Bool := charListPfx pat.data hay.data

def strEndsWith (hay pat : String) : Bool := charListPfx pat.data.reverse hay.data.reverse

/-! ### Data model

`Headline` and `Section` mirror the fields of `wikitext_parser::Section`
that the classifier reads (`headline.level`, `headline.label`,
`subsections`).  `Word` mirrors `words::Word`. -/

structure Headline where
  level : Nat
  label : String
deriving DecidableEq, Repr

inductive Section where
  | mk (headline : Headline) (subsections : List Section)

def Section.headline : Section → Headline
  | .mk h _ => h

def Section.subsections : Section → List Section
  | .mk _ s => s

structure Wikitext where
  root_section : Section

structure Word where
  word : String
  language_english_name : String
  word_type : String
deriving DecidableEq, Repr

/-! ### The regex vocabulary of `src/parser/words/mod.rs`

`IGNORED_PATTERN` is
`(Wiktionary:|Appendix:|Help:|Rhymes:|Template:|MediaWiki:|Citations:|Module:|Reconstruction:|Thesaurus:|Concordance:).*|.*(/derived terms)`;
under unanchored matching the trailing/leading `.*` are redundant, so
`is_match title` holds iff `title` contains one of the namespace literals or
contains `/derived terms`. -/

def ignoredTitleLiterals : List String :=
  ["Wiktionary:", "Appendix:", "Help:", "Rhymes:", "Template:", "MediaWiki:",
   "Citations:", "Module:", "Reconstruction:", "Thesaurus:", "Concordance:"]

def IGNORED_PATTERN_isMatch (title : String) : Bool :=
  ignoredTitleLiterals.any (fun p => hasSub title p) || hasSub title "/derived terms"

/-- The alternatives of `WORD_TYPE_PATTERN`, verbatim from the source except
that `Gerund(ive)?` is embedded as `Gerund`: under unanchored substring
matching, containing `Gerundive` implies containing `Gerund`, so the optional
group is redundant. -/
def wordTypeLiterals : List String :=
  ["Word", "Noun", "Proper noun", "Dependent noun", "Prenoun", "Participle",
   "Gerund", "Verb", "Preverb", "Predicative", "Conjugation", "Adjective",
   "Comparative-only adjectives", "Determinative", "Adverb", "Adnominal",
   "Inflection", "Pronoun", "Preposition", "Postposition", "Ambiposition",
   "Circumposition", "Conjunction", "Initial", "Prefix", "Suffix", "Final",
   "Affix", "Infix", "Interfix", "Circumfix", "Clitic", "Article", "Particle",
   "Locative", "Determiner", "Classifier", "Subordinate modifier",
   "Contraction", "Combining form", "Compound part", "Enclitic", "Relative",
   "Phrase", "Propositional phrase", "Proverb", "Idiom", "Honorific title",
   "Ideophone", "Phonogram", "Onomatopoeia", "Phoneme", "Ligature",
   "Syllable", "Letter", "Symbol", "Counter", "Number", "Numeral",
   "Multiple parts of speech", "Punctuation mark", "Diacritical mark", "Root"]

def WORD_TYPE_PATTERN_isMatch (s : String) : Bool :=
  wordTypeLiterals.any (fun p => hasSub s p)

/-- `IGNORED_LANGUAGE_PATTERN` is the single literal `Translingual`. -/
def IGNORED_LANGUAGE_PATTERN_isMatch (s : String) : Bool :=
  hasSub s "Translingual"

/-- The alternatives of `IGNORED_SUBSECTION_PATTERN`, verbatim from the
source modulo the reductions that are sound for unanchored substring
matching: a trailing `s?` (and the optional numeric group
`( [1-9][0-9]*)?` of `Pronunciation`) is dropped because containing the
longer variant implies containing the shorter literal; the groups `(L|l)`,
`(t|T)`, `(a|A)` and the optional space of `See ?(a|A)lso` are expanded into
all of their variants. -/
def ignoredSubsectionLiterals : List String :=
  ["Variant spellings", "Relational forms", "Spelling variants",
   "Other usage", "Other versions", "Possessed forms", "Graphical notes",
   "Design", "Echo word", "From", "Description", "Derived characters",
   "Derived", "Derivatives", "Alternate spelling", "Accentuation notes",
   "Accentological notes", "Usage", "Citation", "Example", "Sources",
   "User note", "Work to be done", "Stem", "Sign values", "Reconstruction",
   "Production", "Logogram", "Holonym", "Meronyms", "Form",
   "Dialectal synonym", "Decadent", "Abbreviation", "Borrowed term",
   "External Link", "External link", "Related word", "Standard form",
   "Nom glyph origin", "Reading", "Synonym", "Antonym", "Hyponym",
   "Hypernym", "Paronym", "Translation", "Coordinate term",
   "Dialectal variant", "Romanization", "Statistic", "Declension",
   "Alternative script", "Phrasal verb", "Trivia", "Han character", "Hanzi",
   "Glyph origin", "Definition", "Compound", "Descendant", "Kanji", "Hanja",
   "Note", "Derived term", "Derived Term", "Usage notes",
   "Alternative forms", "Alternative", "Etymology", "Pronunciation",
   "Further reading", "Anagrams", "Reference", "Refs", "Further reference",
   "See also", "See Also", "Seealso", "SeeAlso", "Mutation", "Interjection",
   "Quotations", "Gallery", "Related term", "Related Term"]

def IGNORED_SUBSECTION_PATTERN_isMatch (s : String) : Bool :=
  ignoredSubsectionLiterals.any (fun p => hasSub s p)

/-! ### The lexical classifier (`src/parser/words/mod.rs`) -/

/-- The condition of the first branch of the child scan in
`parse_language_subsection`:
`label == "Etymology" || WORD_TYPE_PATTERN.is_match(label)`. -/
def topCond (c : Section) : Bool :=
  c.headline.label == "Etymology" || WORD_TYPE_PATTERN_isMatch c.headline.label

/-- The condition of the second branch:
`label != "Etymology" && label.starts_with("Etymology")`. -/
def bottomCond (c : Section) : Bool :=
  c.headline.label != "Etymology" && strStartsWith c.headline.label "Etymology"

/-- The loop body of `parse_details_subsection`: for each child, a word-type
match emits a `Word` whose `word_type` is the entire label, an
ignored-subsection match is skipped, anything else produces an
`Unknown details subsection` error. -/
def parse_details_children (word lang : String) : List Section → List Word × List String
  | [] => ([], [])
  | d :: rest =>
    let word_type := d.headline.label
    let tail := parse_details_children word lang rest
    if WORD_TYPE_PATTERN_isMatch word_type then
      (⟨word, lang, word_type⟩ :: tail.1, tail.2)
    else if IGNORED_SUBSECTION_PATTERN_isMatch word_type then tail
    else (tail.1, ("Unknown details subsection: " ++ word_type) :: tail.2)

def parse_details_subsection (word lang : String) (details_subsection : Section) :
    List Word × List String :=
  parse_details_children word lang details_subsection.subsections

/-- The mutable state of the child scan in `parse_language_subsection`:
the two flags, the outputs of the two consumers so far, and the locally
buffered `bottomlevel_errors` vector. -/
structure ScanState where
  toplevel_details : Bool
  bottomlevel_details : Bool
  words : List Word
  errors : List String
  bottomlevel_errors : List String
deriving Repr

/-- One iteration of `for unknown_subsection in &language_subsection.subsections`
in `parse_language_subsection`. -/
def scanStep (word lang : String) (st : ScanState) (c : Section) : ScanState :=
  if topCond c then
    { st with toplevel_details := true }
  else if bottomCond c then
    let details := parse_details_subsection word lang c
    { st with bottomlevel_details := true,
              words := st.words ++ details.1,
              errors := st.errors ++ details.2 }
  else if IGNORED_SUBSECTION_PATTERN_isMatch c.headline.label then st
  else
    { st with bottomlevel_errors :=
        st.bottomlevel_errors ++ ["Unknown subsection of language: " ++ c.headline.label] }

/-- `parse_language_subsection`: ignored languages return silently; a
childless language section emits the single `Unknown` word; otherwise the
child scan runs, then the top-level details parse, the
toplevel-and-bottomlevel error, and the conditional flush of the buffered
unknown-subsection errors, in that order. -/
def parse_language_subsection (word : String) (language_subsection : Section) :
    List Word × List String :=
  let language_english_name := language_subsection.headline.label
  if IGNORED_LANGUAGE_PATTERN_isMatch language_english_name then ([], [])
  else if language_subsection.subsections.isEmpty then
    ([⟨word, language_english_name, "Unknown"⟩], [])
  else
    let st := language_subsection.subsections.foldl (scanStep word language_english_name)
      ⟨false, false, [], [], []⟩
    let top :=
      if st.toplevel_details then
        parse_details_subsection word language_english_name language_subsection
      else ([], [])
    let both : List String :=
      if st.toplevel_details && st.bottomlevel_details then
        ["Found both toplevel and bottomlevel details for language " ++ language_english_name]
      else []
    let flushed := if st.bottomlevel_details then st.bottomlevel_errors else []
    (st.words ++ top.1, st.errors ++ top.2 ++ both ++ flushed)

/-- `wikitext_to_words`: titles matching `IGNORED_PATTERN` return silently;
a root at headline level 1 has each of its subsections parsed as a language
subsection with the root's label as the headword; any other root level
produces one error. -/
def wikitext_to_words (title : String) (wikitext : Wikitext) : List Word × List String :=
  if IGNORED_PATTERN_isMatch title then ([], [])
  else
    let root_section := wikitext.root_section
    if root_section.headline.level == 1 then
      root_section.subsections.foldl
        (fun acc s =>
          let r := parse_language_subsection root_section.headline.label s
          (acc.1 ++ r.1, acc.2 ++ r.2))
        ([], [])
    else ([], ["Root section is not at headline level 1"])

/-! ### Closed forms for the child scan

The imperative scan of `parse_language_subsection` is a `foldl` over
`ScanState`.  The following definitions give each component of the final
state in closed form; `scan_foldl_eq` proves the correspondence. -/

/-- `toplevel_details` after the scan: some child satisfied the first
branch's condition. -/
def topLevelDetailsB (children : List Section) : Bool :=
  children.any topCond

/-- `bottomlevel_details` after the scan: some child reached and satisfied
the second branch (so its `topCond` was false and its `bottomCond` true). -/
def bottomLevelDetailsB (children : List Section) : Bool :=
  children.any (fun c => !topCond c && bottomCond c)

/-- The words emitted during the scan: the detail words of each
bottom-level child, in child order. -/
def scanWords (word lang : String) : List Section → List Word
  | [] => []
  | c :: rest =>
    (if !topCond c && bottomCond c then (parse_details_subsection word lang c).1 else [])
      ++ scanWords word lang rest

/-- The errors handed to the error consumer during the scan: the detail
errors of each bottom-level child, in child order. -/
def scanErrors (word lang : String) : List Section → List String
  | [] => []
  | c :: rest =>
    (if !topCond c && bottomCond c then (parse_details_subsection word lang c).2 else [])
      ++ scanErrors word lang rest

/-- The locally buffered `bottomlevel_errors`: one
`Unknown subsection of language` entry per child that fell through all three
guarded branches. -/
def bufferedUnknown : List Section → List String
  | [] => []
  | c :: rest =>
    (if !topCond c && !bottomCond c && !IGNORED_SUBSECTION_PATTERN_isMatch c.headline.label
     then ["Unknown subsection of language: " ++ c.headline.label] else [])
      ++ bufferedUnknown rest

theorem topLevelDetailsB_cons (c : Section) (rest : List Section) :
    topLevelDetailsB (c :: rest) = (topCond c || topLevelDetailsB rest) := by
  simp [topLevelDetailsB]

theorem bottomLevelDetailsB_cons (c : Section) (rest : List Section) :
    bottomLevelDetailsB (c :: rest) = ((!topCond c && bottomCond c) || bottomLevelDetailsB rest) := by
  simp [bottomLevelDetailsB]

theorem scanWords_cons (word lang : String) (c : Section) (rest : List Section) :
    scanWords word lang (c :: rest) =
      (if !topCond c && bottomCond c then (parse_details_subsection word lang c).1 else [])
        ++ scanWords word lang rest := rfl

theorem scanErrors_cons (word lang : String) (c : Section) (rest : List Section) :
    scanErrors word lang (c :: rest) =
      (if !topCond c && bottomCond c then (parse_details_subsection word lang c).2 else [])
        ++ scanErrors word lang rest := rfl

theorem bufferedUnknown_cons (c : Section) (rest : List Section) :
    bufferedUnknown (c :: rest) =
      (if !topCond c && !bottomCond c && !IGNORED_SUBSECTION_PATTERN_isMatch c.headline.label
       then ["Unknown subsection of language: " ++ c.headline.label] else [])
        ++ bufferedUnknown rest := rfl

theorem scan_foldl_eq (word lang : String) (children : List Section) (st : ScanState) :
    children.foldl (scanStep word lang) st =
      { toplevel_details := st.toplevel_details || topLevelDetailsB children,
        bottomlevel_details := st.bottomlevel_details || bottomLevelDetailsB children,
        words := st.words ++ scanWords word lang children,
        errors := st.errors ++ scanErrors word lang children,
        bottomlevel_errors := st.bottomlevel_errors ++ bufferedUnknown children } := by
  induction children generalizing st with
  | nil =>
    simp [topLevelDetailsB, bottomLevelDetailsB, scanWords, scanErrors, bufferedUnknown]
  | cons c rest ih =>
    rw [List.foldl_cons, ih, topLevelDetailsB_cons, bottomLevelDetailsB_cons,
      scanWords_cons, scanErrors_cons, bufferedUnknown_cons]
    unfold scanStep
    by_cases h1 : topCond c
    · simp [h1]
    · by_cases h2 : bottomCond c
      · simp [h1, h2, List.append_assoc]
      · by_cases h3 : IGNORED_SUBSECTION_PATTERN_isMatch c.headline.label
        · simp [h1, h2, h3]
        · simp [h1, h2, h3, List.append_assoc]

/-- Closed form of `parse_language_subsection` on a non-ignored language
section with at least one child: the scan outputs, then the top-level
details parse, the toplevel-and-bottomlevel error, and the conditional
flush of the buffered unknown-subsection errors. -/
theorem parse_language_subsection_eq (word : String) (ls : Section)
    (h1 : IGNORED_LANGUAGE_PATTERN_isMatch ls.headline.label = false)
    (h2 : ls.subsections ≠ []) :
    parse_language_subsection word ls =
      (scanWords word ls.headline.label ls.subsections ++
         (if topLevelDetailsB ls.subsections then
            (parse_details_subsection word ls.headline.label ls).1 else []),
       scanErrors word ls.headline.label ls.subsections ++
         ((if topLevelDetailsB ls.subsections then
             (parse_details_subsection word ls.headline.label ls).2 else []) ++
          ((if topLevelDetailsB ls.subsections && bottomLevelDetailsB ls.subsections then
              ["Found both toplevel and bottomlevel details for language " ++ ls.headline.label]
            else []) ++
           (if bottomLevelDetailsB ls.subsections then bufferedUnknown ls.subsections
            else [])))) := by
  have hne : ls.subsections.isEmpty = false := by
    cases hs : ls.subsections with
    | nil => exact absurd hs h2
    | cons a l => rfl
  unfold parse_language_subsection
  simp only [scan_foldl_eq]
  simp [h1, hne, List.append_assoc]
  constructor <;> split <;> rfl

/-! ### Concrete scenario trees (from the spec's end-to-end scenarios) -/

/-- Page `bank`, text
`= bank =`, `== English ==`, `=== Etymology 1 ===` with `==== Noun ====`
and `==== Verb ====`, `=== Etymology 2 ===` with `==== Noun ====`. -/
def bankTree : Wikitext :=
  ⟨.mk ⟨1, "bank"⟩
    [.mk ⟨2, "English"⟩
      [.mk ⟨3, "Etymology 1"⟩ [.mk ⟨4, "Noun"⟩ [], .mk ⟨4, "Verb"⟩ []],
       .mk ⟨3, "Etymology 2"⟩ [.mk ⟨4, "Noun"⟩ []]]]⟩

/-- Page `mix`, text `= mix =`, `== English ==`, `=== Noun ===`,
`=== Etymology 1 ===` with `==== Verb ====`. -/
def mixTree : Wikitext :=
  ⟨.mk ⟨1, "mix"⟩
    [.mk ⟨2, "English"⟩
      [.mk ⟨3, "Noun"⟩ [], .mk ⟨3, "Etymology 1"⟩ [.mk ⟨4, "Verb"⟩ []]]]⟩

/-- Page `cat`, text `= cat =`, `== English ==` (language stub). -/
def catTree : Wikitext := ⟨.mk ⟨1, "cat"⟩ [.mk ⟨2, "English"⟩ []]⟩

/-! ### Claims about the classifier -/

/-- C1: for every page whose title matches `IGNORED_PATTERN`,
`wikitext_to_words` returns immediately and silently: zero Words are handed
to the word consumer and zero errors to the error consumer, regardless of
the wikitext tree. -/
theorem ignored_title_silent (title : String) (w : Wikitext)
    (h : IGNORED_PATTERN_isMatch title = true) :
    wikitext_to_words title w = ([], []) := by
  unfold wikitext_to_words
  simp [h]

theorem ignored_title_silent_witness :
    IGNORED_PATTERN_isMatch "Template:foo" = true ∧
      wikitext_to_words "Template:foo" bankTree = ([], []) :=
  ⟨by decide, ignored_title_silent "Template:foo" bankTree (by decide)⟩

/-- C2: a non-ignored direct child of a level-1 root that has no child
sections yields exactly one Word — the root's headline label as `word`, the
section's headline label as `language_english_name`, and `"Unknown"` as
`word_type` — and no errors for that section. -/
theorem stub_language_unknown_word (root child : Section)
    (_hlvl : root.headline.level = 1)
    (_hmem : child ∈ root.subsections)
    (hlang : IGNORED_LANGUAGE_PATTERN_isMatch child.headline.label = false)
    (hstub : child.subsections = []) :
    parse_language_subsection root.headline.label child =
      ([⟨root.headline.label, child.headline.label, "Unknown"⟩], []) := by
  unfold parse_language_subsection
  simp [hlang, hstub]

theorem stub_language_unknown_word_witness :
    (catTree.root_section.headline.level = 1 ∧
      Section.mk ⟨2, "English"⟩ [] ∈ catTree.root_section.subsections ∧
      IGNORED_LANGUAGE_PATTERN_isMatch (Section.mk ⟨2, "English"⟩ []).headline.label = false ∧
      (Section.mk ⟨2, "English"⟩ []).subsections = []) ∧
    parse_language_subsection catTree.root_section.headline.label (.mk ⟨2, "English"⟩ []) =
      ([⟨"cat", "English", "Unknown"⟩], []) :=
  ⟨⟨rfl, List.Mem.head _, by decide, rfl⟩,
   stub_language_unknown_word catTree.root_section (.mk ⟨2, "English"⟩ [])
     rfl (List.Mem.head _) (by decide) rfl⟩

/-- C3: on the bottom-level-shape page `bank` of scenario 4, the classifier
hands the word consumer exactly the Words `(bank, English, Noun)`,
`(bank, English, Verb)`, `(bank, English, Noun)`, one invocation per Word in
discovery order, and no errors. -/
theorem bottom_level_shape_bank :
    wikitext_to_words "bank" bankTree =
      ([⟨"bank", "English", "Noun"⟩, ⟨"bank", "English", "Verb"⟩,
        ⟨"bank", "English", "Noun"⟩], []) := by decide

/-- C4 counterexample: on the mixed-shape page `mix` of scenario 6 the word
consumer receives `(mix, English, Verb)` before `(mix, English, Noun)` — the
bottom-level detail words are emitted during the child scan while the
top-level ones are emitted only after it — so the claimed order
`(mix, English, Noun)` then `(mix, English, Verb)` is wrong. -/
theorem mixed_shape_order_counterexample :
    (wikitext_to_words "mix" mixTree).1 =
        [⟨"mix", "English", "Verb"⟩, ⟨"mix", "English", "Noun"⟩] ∧
      ([⟨"mix", "English", "Verb"⟩, ⟨"mix", "English", "Noun"⟩] : List Word) ≠
        [⟨"mix", "English", "Noun"⟩, ⟨"mix", "English", "Verb"⟩] := by decide

/-- C4 (amended): on the mixed-shape page `mix` the classifier emits the
Words `(mix, English, Verb)` and `(mix, English, Noun)` in that order, and
hands the error consumer exactly one error, the
`Found both toplevel and bottomlevel details` message for language English;
it does not abort. -/
theorem mixed_shape_amended :
    wikitext_to_words "mix" mixTree =
      ([⟨"mix", "English", "Verb"⟩, ⟨"mix", "English", "Noun"⟩],
       ["Found both toplevel and bottomlevel details for language English"]) := by decide

/-- C5: for a non-ignored language section with children, the buffered
`Unknown subsection of language` errors are appended to the error-consumer
output exactly when some child set `bottomlevel_details`; when that flag is
false they are discarded silently.  The error stream is, in order: the
detail errors of the bottom-level children, the top-level detail errors (if
`toplevel_details`), the both-shapes error (if both flags), and finally the
buffered unknown-subsection errors if and only if `bottomlevel_details`. -/
theorem unknown_subsection_flush_iff_bottomlevel (word : String) (ls : Section)
    (h1 : IGNORED_LANGUAGE_PATTERN_isMatch ls.headline.label = false)
    (h2 : ls.subsections ≠ []) :
    (parse_language_subsection word ls).2 =
      scanErrors word ls.headline.label ls.subsections ++
        ((if topLevelDetailsB ls.subsections then
            (parse_details_subsection word ls.headline.label ls).2 else []) ++
         ((if topLevelDetailsB ls.subsections && bottomLevelDetailsB ls.subsections then
             ["Found both toplevel and bottomlevel details for language " ++ ls.headline.label]
           else []) ++
          (if bottomLevelDetailsB ls.subsections then bufferedUnknown ls.subsections
           else []))) := by
  rw [parse_language_subsection_eq word ls h1 h2]

theorem unknown_subsection_flush_iff_bottomlevel_witness :
    (IGNORED_LANGUAGE_PATTERN_isMatch
        (Section.mk ⟨2, "English"⟩
          [.mk ⟨3, "Etymology 1"⟩ [.mk ⟨4, "Noun"⟩ []], .mk ⟨3, "Weirdo"⟩ []]).headline.label
        = false ∧
      (Section.mk ⟨2, "English"⟩
        [.mk ⟨3, "Etymology 1"⟩ [.mk ⟨4, "Noun"⟩ []], .mk ⟨3, "Weirdo"⟩ []]).subsections ≠ []) ∧
    (parse_language_subsection "w"
        (.mk ⟨2, "English"⟩
          [.mk ⟨3, "Etymology 1"⟩ [.mk ⟨4, "Noun"⟩ []], .mk ⟨3, "Weirdo"⟩ []])).2 =
      scanErrors "w" "English"
          [.mk ⟨3, "Etymology 1"⟩ [.mk ⟨4, "Noun"⟩ []], .mk ⟨3, "Weirdo"⟩ []] ++
        ((if topLevelDetailsB
              [.mk ⟨3, "Etymology 1"⟩ [.mk ⟨4, "Noun"⟩ []], .mk ⟨3, "Weirdo"⟩ []] then
            (parse_details_subsection "w" "English"
              (.mk ⟨2, "English"⟩
                [.mk ⟨3, "Etymology 1"⟩ [.mk ⟨4, "Noun"⟩ []], .mk ⟨3, "Weirdo"⟩ []])).2
          else []) ++
         ((if topLevelDetailsB
               [.mk ⟨3, "Etymology 1"⟩ [.mk ⟨4, "Noun"⟩ []], .mk ⟨3, "Weirdo"⟩ []] &&
             bottomLevelDetailsB
               [.mk ⟨3, "Etymology 1"⟩ [.mk ⟨4, "Noun"⟩ []], .mk ⟨3, "Weirdo"⟩ []] then
             ["Found both toplevel and bottomlevel details for language " ++ "English"]
           else []) ++
          (if bottomLevelDetailsB
               [.mk ⟨3, "Etymology 1"⟩ [.mk ⟨4, "Noun"⟩ []], .mk ⟨3, "Weirdo"⟩ []] then
             bufferedUnknown [.mk ⟨3, "Etymology 1"⟩ [.mk ⟨4, "Noun"⟩ []], .mk ⟨3, "Weirdo"⟩ []]
           else []))) :=
  ⟨⟨by decide, by simp [Section.subsections]⟩,
   unknown_subsection_flush_iff_bottomlevel "w"
     (.mk ⟨2, "English"⟩ [.mk ⟨3, "Etymology 1"⟩ [.mk ⟨4, "Noun"⟩ []], .mk ⟨3, "Weirdo"⟩ []])
     (by decide) (by simp [Section.subsections])⟩

/-- A word-type substring match in a child makes `parse_details_children`
emit the Word whose `word_type` is that child's entire label. -/
theorem parse_details_children_mem (word lang : String) (l : List Section) (c : Section)
    (hc : c ∈ l)
    (hm : WORD_TYPE_PATTERN_isMatch c.headline.label = true) :
    (⟨word, lang, c.headline.label⟩ : Word) ∈ (parse_details_children word lang l).1 := by
  induction l with
  | nil => cases hc
  | cons d rest ih =>
    rcases List.mem_cons.mp hc with h | h
    · subst h
      simp [parse_details_children, hm]
    · have htail := ih h
      unfold parse_details_children
      by_cases h1 : WORD_TYPE_PATTERN_isMatch d.headline.label
      · simp [h1, htail]
      · by_cases h2 : IGNORED_SUBSECTION_PATTERN_isMatch d.headline.label
        · simp [h1, h2, htail]
        · simp [h1, h2, htail]

/-- C9: the word-type regex is applied with unanchored substring matching,
so in the details parse any child whose headline label merely contains one
of the `WORD_TYPE_PATTERN` alternation literals as a case-sensitive
substring is emitted as a Word whose `word_type` is the entire label, not
the matched alternation. -/
theorem substring_match_emits_whole_label (word lang : String) (parent c : Section)
    (hmem : c ∈ parent.subsections)
    (h : ∃ alt ∈ wordTypeLiterals, hasSub c.headline.label alt = true) :
    (⟨word, lang, c.headline.label⟩ : Word) ∈ (parse_details_subsection word lang parent).1 := by
  have hm : WORD_TYPE_PATTERN_isMatch c.headline.label = true := by
    unfold WORD_TYPE_PATTERN_isMatch
    rw [List.any_eq_true]
    obtain ⟨alt, haltmem, halt⟩ := h
    exact ⟨alt, haltmem, halt⟩
  exact parse_details_children_mem word lang parent.subsections c hmem hm

theorem substring_match_emits_whole_label_witness :
    (Section.mk ⟨3, "My Noun stuff"⟩ [] ∈
        (Section.mk ⟨2, "English"⟩ [.mk ⟨3, "My Noun stuff"⟩ []]).subsections ∧
      ∃ alt ∈ wordTypeLiterals, hasSub "My Noun stuff" alt = true) ∧
    (⟨"w", "English", "My Noun stuff"⟩ : Word) ∈
      (parse_details_subsection "w" "English"
        (.mk ⟨2, "English"⟩ [.mk ⟨3, "My Noun stuff"⟩ []])).1 :=
  ⟨⟨List.Mem.head _, ⟨"Noun", by decide, by decide⟩⟩,
   substring_match_emits_whole_label "w" "English"
     (.mk ⟨2, "English"⟩ [.mk ⟨3, "My Noun stuff"⟩ []]) (.mk ⟨3, "My Noun stuff"⟩ [])
     (List.Mem.head _) ⟨"Noun", by decide, by decide⟩⟩

/-- C10: for a non-ignored language section with at least one child where no
child satisfies the top-level condition and no child satisfies the
bottom-level condition (every child is either an ignored subsection or an
unknown one), the classifier emits zero Words for that section: the
`Unknown` fallback Word is reserved for childless language sections. -/
theorem no_details_no_words (word : String) (ls : Section)
    (h1 : IGNORED_LANGUAGE_PATTERN_isMatch ls.headline.label = false)
    (h2 : ls.subsections ≠ [])
    (h3 : ∀ c ∈ ls.subsections, topCond c = false ∧ bottomCond c = false) :
    (parse_language_subsection word ls).1 = [] := by
  have hscan : ∀ l : List Section, (∀ c ∈ l, topCond c = false ∧ bottomCond c = false) →
      scanWords word ls.headline.label l = [] := by
    intro l
    induction l with
    | nil => intro _; rfl
    | cons c rest ih =>
      intro hall
      have hc := hall c (List.Mem.head _)
      rw [scanWords_cons, hc.2]
      simp [ih fun d hd => hall d (List.mem_cons_of_mem c hd)]
  have htop : topLevelDetailsB ls.subsections = false := by
    unfold topLevelDetailsB
    rw [List.any_eq_false]
    intro c hc
    simp [(h3 c hc).1]
  rw [parse_language_subsection_eq word ls h1 h2]
  simp [htop, hscan ls.subsections h3]

theorem no_details_no_words_witness :
    (IGNORED_LANGUAGE_PATTERN_isMatch
        (Section.mk ⟨2, "English"⟩
          [.mk ⟨3, "Pronunciation"⟩ [], .mk ⟨3, "Gibberish"⟩ []]).headline.label = false ∧
      (Section.mk ⟨2, "English"⟩
        [.mk ⟨3, "Pronunciation"⟩ [], .mk ⟨3, "Gibberish"⟩ []]).subsections ≠ [] ∧
      ∀ c ∈ (Section.mk ⟨2, "English"⟩
        [.mk ⟨3, "Pronunciation"⟩ [], .mk ⟨3, "Gibberish"⟩ []]).subsections,
          topCond c = false ∧ bottomCond c = false) ∧
    (parse_language_subsection "w"
      (.mk ⟨2, "English"⟩ [.mk ⟨3, "Pronunciation"⟩ [], .mk ⟨3, "Gibberish"⟩ []])).1 = [] :=
  ⟨⟨by decide, by simp [Section.subsections], by decide⟩,
   no_details_no_words "w"
     (.mk ⟨2, "English"⟩ [.mk ⟨3, "Pronunciation"⟩ [], .mk ⟨3, "Gibberish"⟩ []])
     (by decide) (by simp [Section.subsections]) (by decide)⟩

/-! ### File-extension classification in `parse_dump_file` (`src/parser/mod.rs`)

A path is modelled by its file name (the component `Path::file_name` would
return, assumed non-empty and valid UTF-8, so `OsStr::to_str` is `some`).
`Path::extension`/`Path::file_stem` split the file name at the last `.`
that is not its first character: a name with no such dot has no extension
and is its own stem. -/

/-- Index of the last `.` in a character list, if any. -/
def lastDot : List Char → Option Nat
  | [] => none
  | c :: cs =>
    match lastDot cs with
    | some i => some (i + 1)
    | none => if c == '.' then some 0 else none

/-- Split a file name into (stem, extension) with Rust `Path` semantics:
the split point is the last `.` at index ≥ 1 (a leading dot, as in
`.bashrc`, never splits). -/
def splitAtLastDot (name : String) : String × Option String :=
  match name.data with
  | [] => (name, none)
  | c0 :: tail =>
    match lastDot tail with
    | some i => (⟨(c0 :: tail).take (i + 1)⟩, some ⟨tail.drop (i + 1)⟩)
    | none => (name, none)

/-- `Path::file_stem` (`some` because the modelled path has a file name). -/
def rustFileStem (name : String) : Option String := some (splitAtLastDot name).1

/-- `Path::extension`. -/
def rustExtension (name : String) : Option String := (splitAtLastDot name).2

inductive DumpFileClassification where
  | bz2Xml
  | plainXml
  | fatalBz2WithoutXml
  | fatalUnknownExtension
deriving DecidableEq, Repr

/-- The extension dispatch of `parse_dump_file`.  The first test embeds
`extension().map(OsStr::to_str) == Some(Some("bz2"))`; its inner guard
embeds, call for call,
`file_stem().map(|stem| stem.to_str().filter(|stem| stem.ends_with("xml")).is_some()).is_none()`;
the second test embeds
`extension().filter(|extension| extension.to_str() == Some("xml")).is_some()`;
the final branch is the `Unknown file extension` fatal error. -/
def classify_dump_file (input_file : String) : DumpFileClassification :=
  if rustExtension input_file == some "bz2" then
    if ((rustFileStem input_file).map
          (fun stem => (Option.filter (fun s => strEndsWith s "xml") (some stem)).isSome)).isNone
    then DumpFileClassification.fatalBz2WithoutXml
    else DumpFileClassification.bz2Xml
  else if rustExtension input_file == some "xml" then DumpFileClassification.plainXml
  else DumpFileClassification.fatalUnknownExtension

/-- C6 (the code, at the claim's failing input): the guard meant to reject a
`.bz2` file whose stem does not end in `.xml` tests
`map(...).is_none()` on a `file_stem()` that is always `Some` inside this
branch, so it can never fire: no input is ever classified as
`fatalBz2WithoutXml`, and `foo.bz2` is classified as a bzip2 XML stream and
parsed, where the claim (and the code's own error message) require a fatal
error without parsing. -/
theorem bz2_stem_check_unreachable :
    (∀ f : String, classify_dump_file f ≠ DumpFileClassification.fatalBz2WithoutXml) ∧
      classify_dump_file "foo.bz2" = DumpFileClassification.bz2Xml ∧
      classify_dump_file "enwiktionary.xml.bz2" = DumpFileClassification.bz2Xml ∧
      classify_dump_file "dump.xml" = DumpFileClassification.plainXml ∧
      classify_dump_file "dump.txt" = DumpFileClassification.fatalUnknownExtension := by
  refine ⟨?_, by decide, by decide, by decide, by decide⟩
  intro f
  unfold classify_dump_file rustFileStem
  by_cases h : rustExtension f == some "bz2"
  · simp [h]
  · simp [h]
    split <;> simp

/-! ### The `</contributor>` decision of `parse_contributor`
(`src/parser/mod.rs`)

The function embeds the `RelevantEvent::End(tag)` arm reached with the three
accumulated optional fields; the `format!` error messages are modelled by
their constant prefix (the interpolated debug payloads are elided). -/

inductive Contributor where
  | User (username : String) (id : Int)
  | Anonymous (ip : String)
deriving DecidableEq, Repr

def parse_contributor_end (tag : String) (username : Option String) (id : Option Int)
    (ip : Option String) : Except String Contributor :=
  if tag == "contributor" then
    match username, id, ip with
    | some u, some i, none => Except.ok (Contributor.User u i)
    | none, none, some p => Except.ok (Contributor.Anonymous p)
    | _, _, _ => Except.error "Unknown combination of fields for contributor"
  else Except.error "Found unexpected closing tag"

/-- C7: at a `</contributor>` end tag the parser returns the `User` variant
exactly when `username` and `id` are set and `ip` is unset, the `Anonymous`
variant exactly when `ip` is set and `username` and `id` are unset, and a
fatal error for every other combination; hence every constructed
`Contributor` holds exactly one valid variant. -/
theorem contributor_variant_validity (username : Option String) (id : Option Int)
    (ip : Option String) :
    ((∀ u i, username = some u → id = some i → ip = none →
        parse_contributor_end "contributor" username id ip =
          Except.ok (Contributor.User u i)) ∧
     (∀ p, username = none → id = none → ip = some p →
        parse_contributor_end "contributor" username id ip =
          Except.ok (Contributor.Anonymous p)) ∧
     ((¬ ∃ u i, username = some u ∧ id = some i ∧ ip = none) →
      (¬ ∃ p, username = none ∧ id = none ∧ ip = some p) →
        ∃ e, parse_contributor_end "contributor" username id ip = Except.error e) ∧
     (∀ c, parse_contributor_end "contributor" username id ip = Except.ok c →
        ((∃ u i, username = some u ∧ id = some i ∧ ip = none ∧ c = Contributor.User u i) ∨
         (∃ p, username = none ∧ id = none ∧ ip = some p ∧
           c = Contributor.Anonymous p)))) := by
  rcases username with _ | u <;> rcases id with _ | i <;> rcases ip with _ | p <;>
    simp [parse_contributor_end]

theorem contributor_variant_validity_witness :
    ((some "alice" : Option String) = some "alice" ∧ (some 7 : Option Int) = some 7 ∧
        (none : Option String) = none) ∧
      parse_contributor_end "contributor" (some "alice") (some 7) none =
        Except.ok (Contributor.User "alice" 7) :=
  ⟨⟨rfl, rfl, rfl⟩,
   (contributor_variant_validity (some "alice") (some 7) none).1 "alice" 7 rfl rfl rfl⟩

/-! ### The XML event filter (`src/parser/xml/mod.rs`)

The pull-parser's event stream is modelled as a list of events; the
`loop { match reader.read_event(buffer)? ... }` of `read_relevant_event`
becomes recursion over that list, returning the first relevant event
together with the rest of the stream (`none` when the stream is exhausted
without even an `Eof`, which the real reader never produces).  Tag events
carry their name; text-like events carry their raw bytes.  The `Text` arm
wraps the bytes unchanged via `BytesText::from_escaped(text.to_vec())`. -/

inductive XmlEvent where
  | Start (tag : String)
  | End (tag : String)
  | Empty (tag : String)
  | Text (content : List UInt8)
  | Comment (content : List UInt8)
  | CData (content : List UInt8)
  | Decl
  | PI
  | DocType
  | Eof
deriving DecidableEq, Repr

inductive RelevantEvent where
  | Start (tag : String)
  | End (tag : String)
  | Empty (tag : String)
  | Text (escaped : List UInt8)
  | Eof
deriving DecidableEq, Repr

/-- `u8::is_ascii_whitespace`: space, horizontal tab, newline, form feed,
carriage return. -/
def isAsciiWhitespaceByte (b : UInt8) : Bool :=
  b == 32 || b == 9 || b == 10 || b == 12 || b == 13

def read_relevant_event : List XmlEvent → Option (RelevantEvent × List XmlEvent)
  | [] => none
  | e :: rest =>
    match e with
    | .Start t => some (.Start t, rest)
    | .End t => some (.End t, rest)
    | .Empty t => some (.Empty t, rest)
    | .Text bytes =>
      if bytes.any (fun b => !isAsciiWhitespaceByte b) then some (.Text bytes, rest)
      else read_relevant_event rest
    | .Comment _ => read_relevant_event rest
    | .CData _ => read_relevant_event rest
    | .Decl => read_relevant_event rest
    | .PI => read_relevant_event rest
    | .DocType => read_relevant_event rest
    | .Eof => some (.Eof, rest)

/-- Modelled from the spec: the decoding of one XML entity body (the bytes
between `&` and `;`) per §4.2's "Returned text is XML-unescaped (`&amp;`,
`&lt;`, numeric entities, …)".  The crate delegates unescaping to the
`quick_xml` library, which is not part of this repository's sources.  The
five named XML entities and decimal numeric entities for ASCII code points
are decoded; anything else is left untouched by the caller. -/
def decodeEntity (e : List UInt8) : Option (List UInt8) :=
  if e = [97, 109, 112] then some [38]
  else if e = [108, 116] then some [60]
  else if e = [103, 116] then some [62]
  else if e = [113, 117, 111, 116] then some [34]
  else if e = [97, 112, 111, 115] then some [39]
  else if e.head? = some 35 ∧ e.tail ≠ [] ∧ e.tail.all (fun d => 48 ≤ d.toNat ∧ d.toNat ≤ 57) then
    let v := e.tail.foldl (fun acc d => acc * 10 + (d.toNat - 48)) 0
    if v ≤ 127 then some [UInt8.ofNat v] else none
  else none

/-- Modelled from the spec: XML unescaping of a byte run, per §4.2 (see
`decodeEntity`).  Structured with a fuel argument equal to the input length
so that the definition is structural and evaluates; each step consumes at
least one input byte, so the fuel never runs out. -/
def specXmlUnescapeAux : Nat → List UInt8 → List UInt8
  | 0, l => l
  | Nat.succ fuel, l =>
    match l with
    | [] => []
    | b :: rest =>
      if b == 38 then
        let entity := rest.takeWhile (fun c => c != 59)
        if (rest.drop entity.length).head? == some 59 then
          match decodeEntity entity with
          | some bs => bs ++ specXmlUnescapeAux fuel (rest.drop (entity.length + 1))
          | none => b :: specXmlUnescapeAux fuel rest
        else b :: specXmlUnescapeAux fuel rest
      else b :: specXmlUnescapeAux fuel rest

def specXmlUnescape (l : List UInt8) : List UInt8 := specXmlUnescapeAux l.length l

/-- C8 counterexample: on the text run `&amp;` (bytes 38 97 109 112 59,
which contain non-whitespace) the filter forwards the bytes unchanged,
while their XML-unescaped form is `&` (byte 38): the delivered text is not
XML-unescaped — entity resolution is deferred to the consumer. -/
theorem text_not_unescaped_counterexample :
    read_relevant_event [XmlEvent.Text [38, 97, 109, 112, 59]] =
        some (RelevantEvent.Text [38, 97, 109, 112, 59], []) ∧
      specXmlUnescape [38, 97, 109, 112, 59] = [38] ∧
      ([38, 97, 109, 112, 59] : List UInt8) ≠ specXmlUnescape [38, 97, 109, 112, 59] := by
  decide

/-- C8 (amended): the filter forwards a `Text` event downstream if and only
if the text contains at least one byte that is not ASCII whitespace,
delivering its bytes verbatim, still XML-escaped (wrapped via
`BytesText::from_escaped`; entity resolution is left to the consumer);
whitespace-only text runs and `Comment`, `CData`, `Decl`, `PI` and
`DocType` events are never forwarded, and `Start`, `End`, `Empty` and `Eof`
are forwarded unchanged. -/
theorem event_filter_amended :
    (∀ t rest, read_relevant_event (XmlEvent.Start t :: rest) =
        some (RelevantEvent.Start t, rest)) ∧
    (∀ t rest, read_relevant_event (XmlEvent.End t :: rest) =
        some (RelevantEvent.End t, rest)) ∧
    (∀ t rest, read_relevant_event (XmlEvent.Empty t :: rest) =
        some (RelevantEvent.Empty t, rest)) ∧
    (∀ rest, read_relevant_event (XmlEvent.Eof :: rest) =
        some (RelevantEvent.Eof, rest)) ∧
    (∀ bytes rest, bytes.any (fun b => !isAsciiWhitespaceByte b) = true →
        read_relevant_event (XmlEvent.Text bytes :: rest) =
          some (RelevantEvent.Text bytes, rest)) ∧
    (∀ bytes rest, bytes.any (fun b => !isAsciiWhitespaceByte b) = false →
        read_relevant_event (XmlEvent.Text bytes :: rest) = read_relevant_event rest) ∧
    (∀ content rest, read_relevant_event (XmlEvent.Comment content :: rest) =
        read_relevant_event rest) ∧
    (∀ content rest, read_relevant_event (XmlEvent.CData content :: rest) =
        read_relevant_event rest) ∧
    (∀ rest, read_relevant_event (XmlEvent.Decl :: rest) = read_relevant_event rest) ∧
    (∀ rest, read_relevant_event (XmlEvent.PI :: rest) = read_relevant_event rest) ∧
    (∀ rest, read_relevant_event (XmlEvent.DocType :: rest) = read_relevant_event rest) ∧
    (∀ events bytes rest, read_relevant_event events = some (RelevantEvent.Text bytes, rest) →
        ∃ b ∈ bytes, isAsciiWhitespaceByte b = false) := by
  refine ⟨fun t rest => rfl, fun t rest => rfl, fun t rest => rfl, fun rest => rfl,
    ?_, ?_, fun c rest => rfl, fun c rest => rfl, fun rest => rfl, fun rest => rfl,
    fun rest => rfl, ?_⟩
  · intro bytes rest h
    simp [read_relevant_event, h]
  · intro bytes rest h
    simp [read_relevant_event, h]
  · intro events
    induction events with
    | nil =>
      intro bytes rest h
      simp [read_relevant_event] at h
    | cons e tail ih =>
      intro bytes rest h
      cases e with
      | Start t => simp [read_relevant_event] at h
      | End t => simp [read_relevant_event] at h
      | Empty t => simp [read_relevant_event] at h
      | Eof => simp [read_relevant_event] at h
      | Text bs =>
        by_cases hany : bs.any (fun b => !isAsciiWhitespaceByte b) = true
        · rw [show read_relevant_event (XmlEvent.Text bs :: tail) =
              some (RelevantEvent.Text bs, tail) by simp [read_relevant_event, hany]] at h
          obtain ⟨hbs, -⟩ := Prod.mk.injEq .. ▸ Option.some.injEq .. ▸ h
          obtain ⟨b, hb, hnb⟩ := List.any_eq_true.mp hany
          exact ⟨b, (RelevantEvent.Text.injEq .. ▸ hbs : bs = bytes) ▸ hb,
            Bool.not_eq_true' .. ▸ hnb⟩
        · have hfalse : bs.any (fun b => !isAsciiWhitespaceByte b) = false :=
            Bool.not_eq_true _ ▸ hany
          rw [show read_relevant_event (XmlEvent.Text bs :: tail) = read_relevant_event tail
            by simp [read_relevant_event, hfalse]] at h
          exact ih bytes rest h
      | Comment c => exact ih bytes rest h
      | CData c => exact ih bytes rest h
      | Decl => exact ih bytes rest h
      | PI => exact ih bytes rest h
      | DocType => exact ih bytes rest h

theorem event_filter_amended_witness :
    ([65] : List UInt8).any (fun b => !isAsciiWhitespaceByte b) = true ∧
      read_relevant_event [XmlEvent.Text [65]] = some (RelevantEvent.Text [65], []) :=
  ⟨by decide, event_filter_amended.2.2.2.2.1 [65] [] (by decide)⟩

end WiktionaryDumpParser
